import Mathlib

/-!
Verification of the riscv64 ABI layer
(`cranelift/codegen/src/isa/riscv64/abi.rs`) and the ISLE lowering glue
(`cranelift/codegen/src/isa/riscv64/lower/isle.rs`).

The Rust code is shallowly embedded: each Rust function that the properties
below mention is translated into an executable Lean definition of the same
name.  Machine integers are modelled as `Nat`/`Int`; fallible or panicking
code paths are modelled with `Option` (a `none` result stands for a Rust
panic / abort).
-/

/- ------------------------------------------------------------------ -/
/- Data model: IR value types, parameter descriptors, registers       -/
/- ------------------------------------------------------------------ -/

/-- Scalar IR value types used by the riscv64 ABI code
(`I8 ... I128` integers, `B1 ... B128` booleans, `F32/F64` floats,
`R32/R64` reference types).  Vector types, which the source rejects with
`todo!`, are not represented. -/
inductive IrType
  | I8 | I16 | I32 | I64 | I128
  | B1 | B8 | B16 | B32 | B64 | B128
  | F32 | F64
  | R32 | R64
deriving DecidableEq

/-- Modelled from the spec: `Type::is_int` of `cranelift/codegen/ir/types.rs`
(not under `src/`): true exactly for the integer types `I8 ... I128`;
boolean, float and reference types are not "int". -/
def IrType.is_int : IrType → Bool
  | .I8 | .I16 | .I32 | .I64 | .I128 => true
  | _ => false

/-- Modelled from the spec: `Type::is_float` of `cranelift/codegen/ir/types.rs`
(not under `src/`): true exactly for `F32` and `F64`. -/
def IrType.is_float : IrType → Bool
  | .F32 | .F64 => true
  | _ => false

/-- Modelled from the spec: `Type::is_bool` of `cranelift/codegen/ir/types.rs`
(not under `src/`): true exactly for `B1 ... B128`. -/
def IrType.is_bool : IrType → Bool
  | .B1 | .B8 | .B16 | .B32 | .B64 | .B128 => true
  | _ => false

/-- `ir::ArgumentExtension`: how a narrow value is widened. -/
inductive ArgumentExtension
  | None | Uext | Sext
deriving DecidableEq

/-- `ir::ArgumentPurpose`.  The constructors matched by
`compute_arg_locs`'s validation are listed explicitly; `Other` stands for
every remaining purpose tag, which the source rejects with a panic. -/
inductive ArgumentPurpose
  | Normal
  | VMContext
  | StructReturn
  | StackLimit
  | StructArgument (size : Nat)
  | Other
deriving DecidableEq

/-- `ir::AbiParam`: a parameter/return descriptor. -/
structure AbiParam where
  value_type : IrType
  purpose : ArgumentPurpose
  extension : ArgumentExtension
deriving DecidableEq

/-- Register class (`regalloc2::RegClass`). -/
inductive RegClass
  | Int | Float
deriving DecidableEq

/-- A real (physical) register: class plus hardware encoding. -/
structure RealReg where
  cls : RegClass
  enc : Nat
deriving DecidableEq

/-- `x_reg n`: the integer register with hardware encoding `n`. -/
def x_reg (n : Nat) : RealReg := ⟨RegClass.Int, n⟩

/-- `f_reg n`: the float register with hardware encoding `n`. -/
def f_reg (n : Nat) : RealReg := ⟨RegClass.Float, n⟩

/-- `ABIArgSlot`: one register- or stack-slot of an argument. -/
inductive ABIArgSlot
  | Reg (reg : RealReg) (ty : IrType) (extension : ArgumentExtension)
  | Stack (offset : Int) (ty : IrType) (extension : ArgumentExtension)
deriving DecidableEq

/-- `ABIArg`: the location of one argument or return value.  The
`pointer` field of the Rust `StructArg` variant is always `None` in this
backend and is omitted. -/
inductive ABIArg
  | Slots (slots : List ABIArgSlot) (purpose : ArgumentPurpose)
  | StructArg (offset : Int) (size : Nat) (purpose : ArgumentPurpose)
deriving DecidableEq

/-- `ABIArg::reg`: a single-register argument. -/
def ABIArg.reg (r : RealReg) (ty : IrType) (ext : ArgumentExtension)
    (purpose : ArgumentPurpose) : ABIArg :=
  .Slots [.Reg r ty ext] purpose

/-- `ABIArg::stack`: a single-stack-slot argument. -/
def ABIArg.stack (offset : Int) (ty : IrType) (ext : ArgumentExtension)
    (purpose : ArgumentPurpose) : ABIArg :=
  .Slots [.Stack offset ty ext] purpose

/-- `ArgsOrRets`: whether locations are computed for arguments or returns. -/
inductive ArgsOrRets
  | Args | Rets
deriving DecidableEq

/-- Calling-convention identifier (opaque here; `stack_align` ignores it). -/
inductive CallConv
  | SystemV | Fast
deriving DecidableEq

/-- `Riscv64MachineDeps::stack_align`: required stack alignment in bytes. -/
def stack_align (_call_conv : CallConv) : Nat := 16

/-- `STACK_ARG_RET_SIZE_LIMIT`: 128 MiB limit on the stack argument /
return area. -/
def STACK_ARG_RET_SIZE_LIMIT : Nat := 128 * 1024 * 1024

/-- Modelled from the spec: `machinst::align_to` (not under `src/`) rounds
up to the given alignment ("final stack area is rounded up to the
convention's 16-byte alignment"). -/
def align_to (x a : Nat) : Nat := ((x + a - 1) / a) * a

/-- `CodegenError`: only the recoverable error relevant here. -/
inductive CodegenError
  | ImplLimitExceeded
deriving DecidableEq

/-- Result of `compute_arg_locs`: success (locations, stack size, optional
return-area-pointer index), a recoverable `CodegenError`, or `aborted`
for a Rust panic (purpose-validation failure, misaligned struct size,
or the backward-cursor underflow in `step_last_parameter`). -/
inductive CAResult
  | ok (args : List ABIArg) (stackSize : Nat) (pos : Option Nat)
  | err (e : CodegenError)
  | aborted
deriving DecidableEq

/- ------------------------------------------------------------------ -/
/- compute_arg_locs                                                   -/
/- ------------------------------------------------------------------ -/

/-- Loop state of `compute_arg_locs`: the two register cursors, the stack
cursor, the two output lists and the backward cursor `params_last`
captured by the `step_last_parameter` closure. -/
structure CAState where
  next_x_reg : Nat
  next_f_reg : Nat
  next_stack : Nat
  abi_args : List ABIArg
  abi_args_for_stack : List ABIArg
  params_last : Nat
deriving DecidableEq

/-- The `step_last_parameter` closure: `params_last -= 1;
params[params_last].clone()`.  The decrement happens *before* the index is
read.  `none` models the Rust panic on index underflow / out of range. -/
def step_last_parameter (params : List AbiParam) (st : CAState) :
    Option (AbiParam × CAState) :=
  if st.params_last = 0 then none
  else
    match params[st.params_last - 1]? with
    | some p => some (p, { st with params_last := st.params_last - 1 })
    | none => none

/-- `special_purpose_register`: every arm is commented out in the source,
so it always returns `None`. -/
def special_purpose_register (_p : AbiParam) : Option ABIArg := none

/-- One iteration of the `for i in 0..params.len()` loop of
`compute_arg_locs`, processing the parameter `p0 = params[i]`.
`none` models a panic. -/
def ca_process_param (params : List AbiParam) (x_end f_end : Nat)
    (st : CAState) (p0 : AbiParam) : Option CAState :=
  let run_out_of_registers :=
    (p0.value_type.is_float && decide (st.next_f_reg > f_end)) ||
    (p0.value_type.is_int && decide (st.next_x_reg > x_end))
  match (if run_out_of_registers then step_last_parameter params st
         else some (p0, st)) with
  | none => none
  | some (param, st) =>
    -- Validate "purpose": anything outside the closed set panics.
    if param.purpose = ArgumentPurpose.Other then none
    else
      -- `abi_args` rebinding: pushes go to `abi_args_for_stack` when
      -- registers ran out, to `abi_args` otherwise.
      let push : CAState → ABIArg → CAState := fun st a =>
        if run_out_of_registers then
          { st with abi_args_for_stack := st.abi_args_for_stack ++ [a] }
        else
          { st with abi_args := st.abi_args ++ [a] }
      match special_purpose_register param with
      | some p => some (push st p)
      | none =>
        match param.purpose with
        | .StructArgument size =>
          if size % 8 = 0 then
            let offset := st.next_stack
            some (push { st with next_stack := st.next_stack + size }
              (.StructArg (offset : Int) size param.purpose))
          else none
        | _ =>
          match param.value_type with
          | .F32 | .F64 =>
            if st.next_f_reg ≤ f_end then
              let st1 := push st (ABIArg.reg (f_reg st.next_f_reg)
                param.value_type param.extension param.purpose)
              some { st1 with next_f_reg := st1.next_f_reg + 1 }
            else
              let st1 := push st (ABIArg.stack (st.next_stack : Int)
                param.value_type param.extension param.purpose)
              some { st1 with next_stack := st1.next_stack + 8 }
          | .B1 | .B8 | .B16 | .B32 | .B64 | .I8 | .I16 | .I32 | .I64
          | .R32 | .R64 =>
            if st.next_x_reg ≤ x_end then
              let st1 := push st (ABIArg.reg (x_reg st.next_x_reg)
                param.value_type param.extension param.purpose)
              some { st1 with next_x_reg := st1.next_x_reg + 1 }
            else
              let st1 := push st (ABIArg.stack (st.next_stack : Int)
                param.value_type param.extension param.purpose)
              some { st1 with next_stack := st1.next_stack + 8 }
          | .I128 | .B128 =>
            let elem_type :=
              if param.value_type = IrType.I128 then IrType.I64 else IrType.B64
            if st.next_x_reg + 1 ≤ x_end then
              let slots := [ABIArgSlot.Reg (x_reg st.next_x_reg) elem_type param.extension,
                            ABIArgSlot.Reg (x_reg (st.next_x_reg + 1)) elem_type param.extension]
              some (push { st with next_x_reg := st.next_x_reg + 2 }
                (.Slots slots .Normal))
            else if st.next_x_reg ≤ x_end then
              let slots := [ABIArgSlot.Reg (x_reg st.next_x_reg) elem_type param.extension,
                            ABIArgSlot.Stack (st.next_stack : Int) elem_type param.extension]
              some (push { st with next_x_reg := st.next_x_reg + 1,
                                   next_stack := st.next_stack + 8 }
                (.Slots slots .Normal))
            else
              let slots := [ABIArgSlot.Stack (st.next_stack : Int) elem_type param.extension,
                            ABIArgSlot.Stack ((st.next_stack + 8 : Nat) : Int) elem_type param.extension]
              some (push { st with next_stack := st.next_stack + 16 }
                (.Slots slots .Normal))

/-- `compute_arg_locs` up to (and including) the final 16-byte alignment,
but before the 128 MiB limit check.  Returns `none` on a panic. -/
def compute_arg_locs_core (call_conv : CallConv) (params : List AbiParam)
    (args_or_rets : ArgsOrRets) (add_ret_area_ptr : Bool) :
    Option (List ABIArg × Nat × Option Nat) :=
  let x_start : Nat := 10
  let x_end : Nat := if args_or_rets = ArgsOrRets.Args then 17 else 11
  let f_start : Nat := 10
  let f_end : Nat := if args_or_rets = ArgsOrRets.Args then 17 else 11
  let init : CAState := {
    next_x_reg := x_start, next_f_reg := f_start, next_stack := 0,
    abi_args := [], abi_args_for_stack := [],
    params_last := if params.length > 0 then params.length - 1 else 0 }
  match params.foldlM (ca_process_param params x_end f_end) init with
  | none => none
  | some st =>
    let abi_args := st.abi_args ++ st.abi_args_for_stack.reverse
    let with_ret_ptr : Option (List ABIArg × Nat × Option Nat) :=
      if add_ret_area_ptr then
        -- `assert!(ArgsOrRets::Args == args_or_rets)`
        if args_or_rets = ArgsOrRets.Args then
          if st.next_x_reg ≤ x_end then
            let args := abi_args ++
              [ABIArg.reg (x_reg st.next_x_reg) .I64 .None .Normal]
            some (args, st.next_stack, some (args.length - 1))
          else
            let args := abi_args ++
              [ABIArg.stack (st.next_stack : Int) .I64 .None .Normal]
            some (args, st.next_stack + 8, some (args.length - 1))
        else none
      else some (abi_args, st.next_stack, none)
    match with_ret_ptr with
    | none => none
    | some (args, ns, pos) =>
      some (args, align_to ns (stack_align call_conv), pos)

/-- `Riscv64MachineDeps::compute_arg_locs`: the aligned stack size is
checked against `STACK_ARG_RET_SIZE_LIMIT`; above it the recoverable
`ImplLimitExceeded` is returned. -/
def compute_arg_locs (call_conv : CallConv) (params : List AbiParam)
    (args_or_rets : ArgsOrRets) (add_ret_area_ptr : Bool) : CAResult :=
  match compute_arg_locs_core call_conv params args_or_rets add_ret_area_ptr with
  | none => .aborted
  | some (args, ns, pos) =>
    if ns > STACK_ARG_RET_SIZE_LIMIT then .err .ImplLimitExceeded
    else .ok args ns pos

/- ------------------------------------------------------------------ -/
/- Caller/callee-saved register tables                                -/
/- ------------------------------------------------------------------ -/

/-- `CALLER_SAVE_X_REG`: caller-saved flags for the 32 integer registers. -/
def CALLER_SAVE_X_REG : List Bool := [
  false, true, false, false, false, true, true, true,     -- 0-7
  false, false, true, true, true, true, true, true,       -- 8-15
  true, true, false, false, false, false, false, false,   -- 16-23
  false, false, false, false, true, true, true, true]     -- 24-31

/-- `CALLEE_SAVE_X_REG`: callee-saved flags for the 32 integer registers. -/
def CALLEE_SAVE_X_REG : List Bool := [
  false, false, true, false, false, false, false, false,  -- 0-7
  true, true, false, false, false, false, false, false,   -- 8-15
  false, false, true, true, true, true, true, true,       -- 16-23
  true, true, true, true, false, false, false, false]     -- 24-31

/-- `CALLER_SAVE_F_REG`: caller-saved flags for the 32 float registers. -/
def CALLER_SAVE_F_REG : List Bool := [
  true, true, true, true, true, true, true, true,         -- 0-7
  false, true, true, true, true, true, true, true,        -- 8-15
  true, true, false, false, false, false, false, false,   -- 16-23
  false, false, false, false, true, true, true, true]     -- 24-31

/-- `CALLEE_SAVE_F_REG`: callee-saved flags for the 32 float registers. -/
def CALLEE_SAVE_F_REG : List Bool := [
  false, false, false, false, false, false, false, false, -- 0-7
  true, false, false, false, false, false, false, false,  -- 8-15
  false, false, true, true, true, true, true, true,       -- 16-23
  true, true, true, true, false, false, false, false]     -- 24-31

/-- `is_reg_saved_in_prologue`: table lookup by class and hardware
encoding. -/
def is_reg_saved_in_prologue (_conv : CallConv) (reg : RealReg) : Bool :=
  if reg.cls = RegClass.Int then CALLEE_SAVE_X_REG.getD reg.enc false
  else CALLEE_SAVE_F_REG.getD reg.enc false

/-- A plain I64 parameter: Normal purpose, no extension. -/
def pI64 : AbiParam := ⟨.I64, .Normal, .None⟩

/-- A plain I64 parameter with sign extension requested. -/
def pI64sext : AbiParam := ⟨.I64, .Normal, .Sext⟩

/-- Is this location a single stack slot? -/
def ABIArg.isStackLoc : ABIArg → Bool
  | .Slots [.Stack _ _ _] _ => true
  | _ => false

/-- Is this location a single register slot? -/
def ABIArg.isRegLoc : ABIArg → Bool
  | .Slots [.Reg _ _ _] _ => true
  | _ => false

/-- Does any slot of this location carry the given extension mode? -/
def ABIArg.mentionsExt (e : ArgumentExtension) : ABIArg → Bool
  | .Slots slots _ => slots.any (fun s =>
      match s with
      | .Reg _ _ x => x = e
      | .Stack _ _ x => x = e)
  | .StructArg _ _ _ => false

/- ------------------------------------------------------------------ -/
/- Claim theorems for compute_arg_locs                                -/
/- ------------------------------------------------------------------ -/

/-- C1: for 9 identical plain-integer parameters (I64, Normal, no
extension) with `ArgsOrRets::Args` and no return-area pointer,
`compute_arg_locs` assigns parameters 1-8 to the 8 pairwise-distinct
integer argument registers x10..x17 in input order, puts the 9th
location on the stack at byte offset 0, and reports a total stack size
of 16 bytes. -/
theorem c1_nine_int_params :
    compute_arg_locs CallConv.SystemV (List.replicate 9 pI64)
      ArgsOrRets.Args false =
    CAResult.ok
      ((List.range 8).map (fun k =>
          ABIArg.reg (x_reg (10 + k)) .I64 .None .Normal) ++
        [ABIArg.stack 0 .I64 .None .Normal])
      16 none
    ∧ ((List.range 8).map (fun k => x_reg (10 + k))).Nodup := by decide

/-- C2 (code bug): `step_last_parameter` decrements its backward cursor
*before* reading, so the deferred stack parameters receive the
descriptors of `params[N-2] .. params[R-1]` instead of the last `N-R`
descriptors `params[R] .. params[N-1]`.  First conjunct: with 8 plain
I64 parameters followed by one I64 parameter requesting sign extension,
the single stack location carries extension `None` (parameter 8's
descriptor) and the `Sext` descriptor of the last parameter appears
nowhere in the output.  Second conjunct: with 10 identical I64
parameters the two stack locations appear, in final output order, at
offsets 8 and then 0 — strictly *decreasing*, not increasing. -/
theorem c2_deferred_params_bug :
    (compute_arg_locs CallConv.SystemV (List.replicate 8 pI64 ++ [pI64sext])
        ArgsOrRets.Args false =
      CAResult.ok
        ((List.range 8).map (fun k =>
            ABIArg.reg (x_reg (10 + k)) .I64 .None .Normal) ++
          [ABIArg.stack 0 .I64 .None .Normal])
        16 none
      ∧ ∀ r ∈ compute_arg_locs CallConv.SystemV
            (List.replicate 8 pI64 ++ [pI64sext]) ArgsOrRets.Args false |>
            (fun o => match o with
                      | CAResult.ok args _ _ => args
                      | _ => []),
          r.mentionsExt ArgumentExtension.Sext = false)
    ∧ compute_arg_locs CallConv.SystemV (List.replicate 10 pI64)
        ArgsOrRets.Args false =
      CAResult.ok
        ((List.range 8).map (fun k =>
            ABIArg.reg (x_reg (10 + k)) .I64 .None .Normal) ++
          [ABIArg.stack 8 .I64 .None .Normal,
           ABIArg.stack 0 .I64 .None .Normal])
        16 none := by decide

/-- C3 counterexample: integer register encoding 0 (the hardwired zero
register) is in *neither* the caller-saved nor the callee-saved table,
so the two 32-entry integer tables do not cover all 32 encodings. -/
theorem c3_x_reg_zero_uncovered :
    ¬ (CALLER_SAVE_X_REG.getD 0 false = true ∨
       CALLEE_SAVE_X_REG.getD 0 false = true) := by decide

/-- C3 (amended): for each class the caller-saved and callee-saved
tables are disjoint; the float tables cover all 32 encodings, but the
integer tables cover exactly the encodings other than 0 (zero register),
3 (gp) and 4 (tp). -/
theorem c3_saved_tables_partition :
    (∀ i, i < 32 → ¬(CALLER_SAVE_X_REG.getD i false = true ∧
                     CALLEE_SAVE_X_REG.getD i false = true))
    ∧ (∀ i, i < 32 → ¬(CALLER_SAVE_F_REG.getD i false = true ∧
                       CALLEE_SAVE_F_REG.getD i false = true))
    ∧ (∀ i, i < 32 → (CALLER_SAVE_F_REG.getD i false = true ∨
                      CALLEE_SAVE_F_REG.getD i false = true))
    ∧ (∀ i, i < 32 →
        ((CALLER_SAVE_X_REG.getD i false = true ∨
          CALLEE_SAVE_X_REG.getD i false = true) ↔
         (i ≠ 0 ∧ i ≠ 3 ∧ i ≠ 4))) := by decide

/-- C3 witness: encoding 5 is covered by the integer tables. -/
theorem c3_saved_tables_partition_witness :
    CALLER_SAVE_X_REG.getD 5 false = true ∨
    CALLEE_SAVE_X_REG.getD 5 false = true :=
  (c3_saved_tables_partition.2.2.2 5 (by decide)).mpr (by decide)

/-- C4: `compute_arg_locs` returns the recoverable `ImplLimitExceeded`
exactly when the 16-byte-aligned stack area exceeds 128 MiB.  First
conjunct: a successful result never reports a stack size above the
limit.  Second conjunct: the error is returned iff the non-panicking
computation produced an aligned size strictly above the limit.  Third
and fourth conjuncts: a struct argument of exactly 128 MiB succeeds
while one of 128 MiB + 8 bytes (the smallest representable overshoot;
all stack areas are multiples of 8 before alignment) fails with
`ImplLimitExceeded` and not with a panic. -/
theorem c4_stack_limit :
    (∀ cc params aor arp args ns pos,
        compute_arg_locs cc params aor arp = CAResult.ok args ns pos →
        ns ≤ STACK_ARG_RET_SIZE_LIMIT)
    ∧ (∀ cc params aor arp,
        compute_arg_locs cc params aor arp =
          CAResult.err CodegenError.ImplLimitExceeded ↔
        ∃ args ns pos,
          compute_arg_locs_core cc params aor arp = some (args, ns, pos) ∧
          STACK_ARG_RET_SIZE_LIMIT < ns)
    ∧ compute_arg_locs CallConv.SystemV
        [⟨.I64, .StructArgument 134217728, .None⟩] ArgsOrRets.Args false =
      CAResult.ok [.StructArg 0 134217728 (.StructArgument 134217728)]
        134217728 none
    ∧ compute_arg_locs CallConv.SystemV
        [⟨.I64, .StructArgument 134217736, .None⟩] ArgsOrRets.Args false =
      CAResult.err CodegenError.ImplLimitExceeded := by
  refine ⟨?_, ?_, by decide, by decide⟩
  · intro cc params aor arp args ns pos h
    unfold compute_arg_locs at h
    cases hcore : compute_arg_locs_core cc params aor arp with
    | none => rw [hcore] at h; exact absurd h (by simp)
    | some v =>
      obtain ⟨a, n, p⟩ := v
      rw [hcore] at h
      by_cases hn : n > STACK_ARG_RET_SIZE_LIMIT
      · simp [hn] at h
      · simp [hn] at h
        omega
  · intro cc params aor arp
    constructor
    · intro h
      unfold compute_arg_locs at h
      cases hcore : compute_arg_locs_core cc params aor arp with
      | none => rw [hcore] at h; exact absurd h (by simp)
      | some v =>
        obtain ⟨a, n, p⟩ := v
        rw [hcore] at h
        by_cases hn : n > STACK_ARG_RET_SIZE_LIMIT
        · exact ⟨a, n, p, rfl, hn⟩
        · simp [hn] at h
    · rintro ⟨a, n, p, hcore, hn⟩
      unfold compute_arg_locs
      rw [hcore]
      simp [hn]

/-- C4 witness: the general bound of `c4_stack_limit` applied to the
concrete 128 MiB success case. -/
theorem c4_stack_limit_witness :
    (134217728 : Nat) ≤ STACK_ARG_RET_SIZE_LIMIT :=
  c4_stack_limit.1 CallConv.SystemV
    [⟨.I64, .StructArgument 134217728, .None⟩] ArgsOrRets.Args false
    [.StructArg 0 134217728 (.StructArgument 134217728)] 134217728 none
    (by decide)

/-- A plain F64 parameter: Normal purpose, no extension. -/
def pF64 : AbiParam := ⟨.F64, .Normal, .None⟩

/-- Shape check for n identical scalar returns of descriptor `p`: the
first two locations are the registers `r10` and `r11` (carrying `p`'s
descriptor) and every later location is a stack slot. -/
def rets_locations_shape (p : AbiParam) (r10 r11 : RealReg) (n : Nat) : Bool :=
  match compute_arg_locs CallConv.SystemV (List.replicate n p)
      ArgsOrRets.Rets false with
  | CAResult.ok locs _ _ =>
    decide (locs.length = n) &&
    decide (locs.take 2 =
      [ABIArg.reg r10 p.value_type p.extension p.purpose,
       ABIArg.reg r11 p.value_type p.extension p.purpose]) &&
    (locs.drop 2).all ABIArg.isStackLoc
  | _ => false

/-- Shape check for n identical scalar arguments of descriptor `p`: all
in registers, zero stack bytes. -/
def args_all_in_regs (p : AbiParam) (n : Nat) : Bool :=
  match compute_arg_locs CallConv.SystemV (List.replicate n p)
      ArgsOrRets.Args false with
  | CAResult.ok locs sz _ =>
    decide (locs.length = n) && decide (sz = 0) && locs.all ABIArg.isRegLoc
  | _ => false

/-- C10: argument locations draw from eight registers per class
(integer x10-x17, float f10-f17) but return locations from only two
(x10-x11, f10-f11).  First four conjuncts (concrete): three I64 values
as returns give x10, x11 and a stack slot at offset 0 (stack size 16)
while the same list as arguments stays fully in registers x10..x12 with
zero stack bytes; three F64 values behave the same with f10, f11 /
f10..f12.  Last conjunct (general): for every 3 ≤ n ≤ 8 and for each
class (I64 in integer registers, F64 in float registers), n values as
returns put exactly the locations after the first two on the stack,
while as arguments all n stay in registers. -/
theorem c10_args_vs_rets_register_ranges :
    compute_arg_locs CallConv.SystemV (List.replicate 3 pI64)
      ArgsOrRets.Rets false =
      CAResult.ok
        [ABIArg.reg (x_reg 10) .I64 .None .Normal,
         ABIArg.reg (x_reg 11) .I64 .None .Normal,
         ABIArg.stack 0 .I64 .None .Normal] 16 none
    ∧ compute_arg_locs CallConv.SystemV (List.replicate 3 pI64)
        ArgsOrRets.Args false =
      CAResult.ok
        [ABIArg.reg (x_reg 10) .I64 .None .Normal,
         ABIArg.reg (x_reg 11) .I64 .None .Normal,
         ABIArg.reg (x_reg 12) .I64 .None .Normal] 0 none
    ∧ compute_arg_locs CallConv.SystemV (List.replicate 3 pF64)
        ArgsOrRets.Rets false =
      CAResult.ok
        [ABIArg.reg (f_reg 10) .F64 .None .Normal,
         ABIArg.reg (f_reg 11) .F64 .None .Normal,
         ABIArg.stack 0 .F64 .None .Normal] 16 none
    ∧ compute_arg_locs CallConv.SystemV (List.replicate 3 pF64)
        ArgsOrRets.Args false =
      CAResult.ok
        [ABIArg.reg (f_reg 10) .F64 .None .Normal,
         ABIArg.reg (f_reg 11) .F64 .None .Normal,
         ABIArg.reg (f_reg 12) .F64 .None .Normal] 0 none
    ∧ (∀ n, n < 9 → 3 ≤ n →
        rets_locations_shape pI64 (x_reg 10) (x_reg 11) n = true ∧
        args_all_in_regs pI64 n = true ∧
        rets_locations_shape pF64 (f_reg 10) (f_reg 11) n = true ∧
        args_all_in_regs pF64 n = true) := by decide

/-- C10 witness: the general part of
`c10_args_vs_rets_register_ranges` applied at n = 4, for both classes. -/
theorem c10_args_vs_rets_register_ranges_witness :
    rets_locations_shape pI64 (x_reg 10) (x_reg 11) 4 = true ∧
    args_all_in_regs pI64 4 = true ∧
    rets_locations_shape pF64 (f_reg 10) (f_reg 11) 4 = true ∧
    args_all_in_regs pF64 4 = true :=
  c10_args_vs_rets_register_ranges.2.2.2.2 4 (by decide) (by decide)

/- ------------------------------------------------------------------ -/
/- Machine-state semantics for the frame/clobber instruction          -/
/- sequences (prologue, epilogue, clobber save/restore)               -/
/- ------------------------------------------------------------------ -/

/-- Modelled from the spec: the fixed special registers of this ABI
(`regs.rs`, not under `src/`): return-address register x1, stack pointer
x2, frame pointer x8. -/
def link_reg : RealReg := x_reg 1

/-- The stack-pointer register x2. -/
def stack_reg : RealReg := x_reg 2

/-- The frame-pointer register x8. -/
def fp_reg : RealReg := x_reg 8

/-- Machine state: a register file and a word-addressed memory.  Values
are unbounded integers; all loads and stores here are full 64-bit words
so no truncation is involved. -/
structure MState where
  regs : RealReg → Int
  mem : Int → Int

/-- The fragment of `Inst` emitted by the frame/clobber generators:
stack-pointer adjustment, word store/load at an offset from SP
(`gen_store_stack`/`gen_load_stack` with `StackAMode::SPOffset`),
register move, and the state-irrelevant `Unwind` pseudo-instruction. -/
inductive MInst
  | AjustSp (amount : Int)
  | StoreSPOffset (offset : Int) (src : RealReg)
  | LoadSPOffset (offset : Int) (dst : RealReg)
  | Mov (rd rm : RealReg)
  | Unwind
deriving DecidableEq

/-- Modelled from the spec: single-step semantics of the instruction
fragment (RISC-V semantics of `addi sp`, `sd`, `ld`, `mv`; the `Unwind`
pseudo-instruction only records metadata and leaves the state alone). -/
def mstep (s : MState) : MInst → MState
  | .AjustSp amount =>
    { s with regs := Function.update s.regs stack_reg (s.regs stack_reg + amount) }
  | .StoreSPOffset offset src =>
    { s with mem := Function.update s.mem (s.regs stack_reg + offset) (s.regs src) }
  | .LoadSPOffset offset dst =>
    { s with regs := Function.update s.regs dst (s.mem (s.regs stack_reg + offset)) }
  | .Mov rd rm =>
    { s with regs := Function.update s.regs rd (s.regs rm) }
  | .Unwind => s

/-- Execute an instruction sequence in order. -/
def mexec (insts : List MInst) (s : MState) : MState := insts.foldl mstep s

theorem mexec_append (a b : List MInst) (s : MState) :
    mexec (a ++ b) s = mexec b (mexec a s) := by
  simp [mexec, List.foldl_append]

/-- `gen_prologue_frame_setup`: allocate the 16-byte frame header, save
ra at SP+8 and the old fp at SP+0, optionally record an unwind
directive, then copy SP into FP. -/
def gen_prologue_frame_setup (unwind_info : Bool) : List MInst :=
  [MInst.AjustSp (-16),
   MInst.StoreSPOffset 8 link_reg,
   MInst.StoreSPOffset 0 fp_reg] ++
  (if unwind_info then [MInst.Unwind] else []) ++
  [MInst.Mov fp_reg stack_reg]

/-- `gen_epilogue_frame_restore`: reload ra from SP+8 and fp from SP+0,
then free the 16-byte header. -/
def gen_epilogue_frame_restore : List MInst :=
  [MInst.LoadSPOffset 8 link_reg,
   MInst.LoadSPOffset 0 fp_reg,
   MInst.AjustSp 16]

/-- C5: for every machine state (and either unwind-info setting),
running the prologue sequence followed by the epilogue sequence returns
the stack-pointer, frame-pointer and return-address registers to their
pre-prologue values. -/
theorem c5_prologue_epilogue_roundtrip (unwind_info : Bool) (s : MState) :
    (mexec (gen_prologue_frame_setup unwind_info ++ gen_epilogue_frame_restore) s).regs
        stack_reg = s.regs stack_reg
    ∧ (mexec (gen_prologue_frame_setup unwind_info ++ gen_epilogue_frame_restore) s).regs
        fp_reg = s.regs fp_reg
    ∧ (mexec (gen_prologue_frame_setup unwind_info ++ gen_epilogue_frame_restore) s).regs
        link_reg = s.regs link_reg := by
  have hsf : stack_reg ≠ fp_reg := by decide
  have hsl : stack_reg ≠ link_reg := by decide
  have hfl : fp_reg ≠ link_reg := by decide
  cases unwind_info <;>
    refine ⟨?_, ?_, ?_⟩ <;>
    · simp only [gen_prologue_frame_setup, gen_epilogue_frame_restore,
        Bool.false_eq_true, if_false, if_true, List.append_nil, List.nil_append,
        List.cons_append, mexec, List.foldl, mstep]
      simp [Function.update_apply, hsf, hsl, hfl, hsf.symm, hsl.symm, hfl.symm]

/- ------------------------------------------------------------------ -/
/- Clobber save / restore                                             -/
/- ------------------------------------------------------------------ -/

/-- `compute_clobber_size`: every clobbered register of either class
contributes 8 bytes; the total is rounded up to 16. -/
def compute_clobber_size (clobbers : List RealReg) : Nat :=
  let clobbered_size := clobbers.foldl
    (fun acc r => match r.cls with
      | RegClass.Int => acc + 8
      | RegClass.Float => acc + 8) 0
  align_to clobbered_size 16

/-- Modelled from the spec: the deterministic sort order used by
`Vec::sort` on `Writable<RealReg>` — registers ordered by class, then by
hardware encoding ("a deterministic sort order ... must match save
exactly"). -/
def reg_le (a b : RealReg) : Bool :=
  let ra : Nat := match a.cls with | RegClass.Int => 0 | RegClass.Float => 1
  let rb : Nat := match b.cls with | RegClass.Int => 0 | RegClass.Float => 1
  ra < rb || (ra = rb && a.enc ≤ b.enc)

/-- Insertion into a sorted register list. -/
def insert_sorted (r : RealReg) : List RealReg → List RealReg
  | [] => [r]
  | x :: t => if reg_le r x then r :: x :: t else x :: insert_sorted r t

/-- Insertion sort realizing the deterministic order of `regs.sort()`. -/
def sort_regs (l : List RealReg) : List RealReg := l.foldr insert_sorted []

/-- `get_clobbered_callee_saves`: keep only the registers the callee
must save (table lookup), then sort deterministically. -/
def get_clobbered_callee_saves (call_conv : CallConv) (regs : List RealReg) :
    List RealReg :=
  sort_regs (regs.filter (is_reg_saved_in_prologue call_conv))

/-- The store loop of `gen_clobber_save`: one optional unwind directive
and one store at the running offset (step 8) per clobbered register. -/
def save_stores (unwind_info : Bool) : Int → List RealReg → List MInst
  | _, [] => []
  | cur, r :: t =>
    (if unwind_info then [MInst.Unwind] else []) ++
    (MInst.StoreSPOffset cur r :: save_stores unwind_info (cur + 8) t)

/-- The load loop of `gen_clobber_restore`. -/
def load_seq : Int → List RealReg → List MInst
  | _, [] => []
  | cur, r :: t => MInst.LoadSPOffset cur r :: load_seq (cur + 8) t

/-- `gen_clobber_save`: given the already-computed clobbered callee-saved
set, allocate `fixed_frame_storage_size + clobbered_size` bytes and store
each register at sequential 8-byte offsets; returns the clobber-area size
and the instructions. -/
def gen_clobber_save (_call_conv : CallConv) (setup_frame : Bool)
    (unwind_info : Bool) (clobbered_callee_saves : List RealReg)
    (fixed_frame_storage_size : Nat) : Nat × List MInst :=
  let clobbered_size := compute_clobber_size clobbered_callee_saves
  let stack_size := fixed_frame_storage_size + clobbered_size
  let directives := if unwind_info && setup_frame then [MInst.Unwind] else []
  let body :=
    if stack_size > 0 then
      MInst.AjustSp (-(stack_size : Int)) ::
        save_stores unwind_info 0 clobbered_callee_saves
    else []
  (clobbered_size, directives ++ body)

/-- `gen_clobber_restore`: recompute the clobbered callee-saved set from
the raw clobber list, reload each register from its offset, then free the
stack area. -/
def gen_clobber_restore (call_conv : CallConv) (clobbers : List RealReg)
    (fixed_frame_storage_size : Nat) : List MInst :=
  let clobbered_callee_saves := get_clobbered_callee_saves call_conv clobbers
  let stack_size :=
    fixed_frame_storage_size + compute_clobber_size clobbered_callee_saves
  load_seq 0 clobbered_callee_saves ++
    (if stack_size > 0 then [MInst.AjustSp (stack_size : Int)] else [])

/-- The (offset, register) pairs of the stores in a sequence. -/
def store_slots : List MInst → List (Int × RealReg)
  | [] => []
  | MInst.StoreSPOffset off r :: t => (off, r) :: store_slots t
  | _ :: t => store_slots t

/-- The (offset, register) pairs of the loads in a sequence. -/
def load_slots : List MInst → List (Int × RealReg)
  | [] => []
  | MInst.LoadSPOffset off r :: t => (off, r) :: load_slots t
  | _ :: t => load_slots t

/-- The 8-byte-spaced slot schedule starting at `cur`. -/
def slot_schedule : Int → List RealReg → List (Int × RealReg)
  | _, [] => []
  | cur, r :: t => (cur, r) :: slot_schedule (cur + 8) t

theorem compute_clobber_size_acc (l : List RealReg) :
    ∀ a : Nat, l.foldl
      (fun acc r => match r.cls with
        | RegClass.Int => acc + 8
        | RegClass.Float => acc + 8) a = a + 8 * l.length := by
  induction l with
  | nil => intro a; simp
  | cons r t ih =>
    intro a
    cases hr : r.cls <;>
      simp [List.foldl, hr, ih (a + 8), List.length_cons] <;> ring

theorem compute_clobber_size_eq (l : List RealReg) :
    compute_clobber_size l = align_to (8 * l.length) 16 := by
  simp [compute_clobber_size, compute_clobber_size_acc l 0]

theorem compute_clobber_size_zero {l : List RealReg}
    (h : compute_clobber_size l = 0) : l = [] := by
  rw [compute_clobber_size_eq] at h
  cases l with
  | nil => rfl
  | cons r t =>
    exfalso
    unfold align_to at h
    have h1 : 8 * (r :: t).length + 16 - 1 = 8 * t.length + 23 := by
      simp [List.length_cons]; ring
    rw [h1] at h
    have h2 : 1 ≤ (8 * t.length + 23) / 16 :=
      Nat.le_div_iff_mul_le (by norm_num) |>.mpr (by omega)
    omega

theorem mexec_if_unwind (b : Bool) (s : MState) :
    mexec (if b then [MInst.Unwind] else []) s = s := by
  cases b <;> rfl

theorem save_stores_regs (u : Bool) (l : List RealReg) :
    ∀ (c : Int) (s : MState), (mexec (save_stores u c l) s).regs = s.regs := by
  induction l with
  | nil => intro c s; rfl
  | cons r t ih =>
    intro c s
    cases u
    · exact ih (c + 8) _
    · exact ih (c + 8) _

theorem save_stores_mem_below (u : Bool) (l : List RealReg) :
    ∀ (c : Int) (s : MState) (x : Int), x < s.regs stack_reg + c →
      (mexec (save_stores u c l) s).mem x = s.mem x := by
  induction l with
  | nil => intro c s x _; rfl
  | cons r t ih =>
    intro c s x hx
    have hne : x ≠ s.regs stack_reg + c := ne_of_lt hx
    have hred : mexec (save_stores u c (r :: t)) s =
        mexec (save_stores u (c + 8) t)
          { s with mem := Function.update s.mem (s.regs stack_reg + c) (s.regs r) } := by
      cases u <;> rfl
    rw [hred, ih (c + 8) _ x (by show x < s.regs stack_reg + (c + 8); omega)]
    exact Function.update_noteq hne _ _

theorem save_stores_mem_at (u : Bool) (l : List RealReg) :
    ∀ (c : Int) (s : MState) (k : Nat) (hk : k < l.length),
      (mexec (save_stores u c l) s).mem (s.regs stack_reg + c + 8 * k) =
        s.regs (l.get ⟨k, hk⟩) := by
  induction l with
  | nil => intro c s k hk; exact absurd hk (by simp)
  | cons r t ih =>
    intro c s k hk
    have hred : mexec (save_stores u c (r :: t)) s =
        mexec (save_stores u (c + 8) t)
          { s with mem := Function.update s.mem (s.regs stack_reg + c) (s.regs r) } := by
      cases u <;> rfl
    cases k with
    | zero =>
      have haddr : s.regs stack_reg + c + 8 * ((0 : Nat) : Int) =
          s.regs stack_reg + c := by push_cast; ring
      rw [haddr, hred, save_stores_mem_below u t (c + 8) _ _
        (by show s.regs stack_reg + c < s.regs stack_reg + (c + 8); omega)]
      exact Function.update_same _ _ _
    | succ k =>
      have hk' : k < t.length := by simpa using Nat.lt_of_succ_lt_succ hk
      have haddr : s.regs stack_reg + c + 8 * ((k + 1 : Nat) : Int) =
          s.regs stack_reg + (c + 8) + 8 * (k : Int) := by push_cast; ring
      rw [haddr, hred]
      exact ih (c + 8)
        { s with mem := Function.update s.mem (s.regs stack_reg + c) (s.regs r) } k hk'

theorem load_seq_id (l : List RealReg) :
    ∀ (c : Int) (s : MState),
      (∀ (k : Nat) (hk : k < l.length),
        s.mem (s.regs stack_reg + c + 8 * k) = s.regs (l.get ⟨k, hk⟩)) →
      mexec (load_seq c l) s = s := by
  induction l with
  | nil => intro c s _; rfl
  | cons r t ih =>
    intro c s h
    have haddr : s.regs stack_reg + c + 8 * ((0 : Nat) : Int) =
        s.regs stack_reg + c := by push_cast; ring
    have hmem : s.mem (s.regs stack_reg + c) = s.regs r := by
      have := h 0 (by simp)
      rwa [haddr] at this
    have hs1 : mstep s (MInst.LoadSPOffset c r) = s := by
      show { s with
        regs := Function.update s.regs r (s.mem (s.regs stack_reg + c)) } = s
      rw [hmem, Function.update_eq_self]
    have hrw : mexec (load_seq c (r :: t)) s =
        mexec (load_seq (c + 8) t) (mstep s (MInst.LoadSPOffset c r)) := rfl
    rw [hrw, hs1]
    apply ih (c + 8) s
    intro k hk
    have := h (k + 1) (by simpa using Nat.succ_lt_succ hk)
    have haddr2 : s.regs stack_reg + c + 8 * ((k + 1 : Nat) : Int) =
        s.regs stack_reg + (c + 8) + 8 * (k : Int) := by push_cast; ring
    rwa [haddr2] at this

theorem store_slots_append (a b : List MInst) :
    store_slots (a ++ b) = store_slots a ++ store_slots b := by
  induction a with
  | nil => rfl
  | cons i t ih => cases i <;> simp [store_slots, ih]

theorem load_slots_append (a b : List MInst) :
    load_slots (a ++ b) = load_slots a ++ load_slots b := by
  induction a with
  | nil => rfl
  | cons i t ih => cases i <;> simp [load_slots, ih]

theorem store_slots_save_stores (u : Bool) (l : List RealReg) :
    ∀ c : Int, store_slots (save_stores u c l) = slot_schedule c l := by
  induction l with
  | nil => intro c; rfl
  | cons r t ih =>
    intro c
    cases u <;> simp [save_stores, store_slots, slot_schedule, ih (c + 8)]

theorem load_slots_load_seq (l : List RealReg) :
    ∀ c : Int, load_slots (load_seq c l) = slot_schedule c l := by
  induction l with
  | nil => intro c; rfl
  | cons r t ih =>
    intro c
    simp [load_seq, load_slots, slot_schedule, ih (c + 8)]

theorem store_slots_if_unwind (b : Bool) :
    store_slots (if b then [MInst.Unwind] else []) = [] := by
  cases b <;> rfl


/-- Core round trip: SP decrement, stores at 0, 8, 16, ..., then loads
at the same offsets, then the matching SP increment restore the whole
register file. -/
theorem save_restore_core (u : Bool) (l : List RealReg) (S : Nat) (s : MState) :
    (mexec ((MInst.AjustSp (-(S : Int)) :: save_stores u 0 l) ++
      (load_seq 0 l ++ [MInst.AjustSp (S : Int)])) s).regs = s.regs := by
  rw [mexec_append]
  have e1 : mexec (MInst.AjustSp (-(S : Int)) :: save_stores u 0 l) s =
      mexec (save_stores u 0 l) (mstep s (MInst.AjustSp (-(S : Int)))) := rfl
  rw [e1]
  set s1 := mstep s (MInst.AjustSp (-(S : Int))) with hs1
  set s2 := mexec (save_stores u 0 l) s1 with hs2
  have hregs2 : s2.regs = s1.regs := save_stores_regs u l 0 s1
  have hload : mexec (load_seq 0 l) s2 = s2 := by
    apply load_seq_id
    intro k hk
    rw [hregs2]
    exact save_stores_mem_at u l 0 s1 k hk
  rw [mexec_append, hload]
  show Function.update s2.regs stack_reg (s2.regs stack_reg + (S : Int)) = s.regs
  rw [hregs2]
  show Function.update
      (Function.update s.regs stack_reg (s.regs stack_reg + -(S : Int)))
      stack_reg
      ((Function.update s.regs stack_reg (s.regs stack_reg + -(S : Int)))
        stack_reg + (S : Int)) = s.regs
  rw [Function.update_same, Function.update_idem]
  have harith : s.regs stack_reg + -(S : Int) + (S : Int) = s.regs stack_reg := by
    ring
  rw [harith, Function.update_eq_self]

/-- C6: for every clobber list, calling convention, unwind/frame flags
and fixed-frame size, running the `gen_clobber_save` sequence (fed the
set computed by `get_clobbered_callee_saves`) followed by the
`gen_clobber_restore` sequence leaves the whole register file — the
stack pointer and every saved register — unchanged, and the restore
sequence's (offset, register) load schedule is exactly the save
sequence's (offset, register) store schedule (same registers in the same
deterministic sorted order, same 8-byte-spaced offsets starting at 0,
same total stack-pointer adjustment). -/
theorem c6_clobber_save_restore_roundtrip (call_conv : CallConv)
    (setup_frame unwind_info : Bool) (clobbers : List RealReg)
    (fixed_frame_storage_size : Nat) (s : MState) :
    (mexec ((gen_clobber_save call_conv setup_frame unwind_info
        (get_clobbered_callee_saves call_conv clobbers)
        fixed_frame_storage_size).2 ++
      gen_clobber_restore call_conv clobbers fixed_frame_storage_size) s).regs
      = s.regs
    ∧ load_slots (gen_clobber_restore call_conv clobbers
        fixed_frame_storage_size) =
      store_slots (gen_clobber_save call_conv setup_frame unwind_info
        (get_clobbered_callee_saves call_conv clobbers)
        fixed_frame_storage_size).2 := by
  by_cases h0 : 0 < fixed_frame_storage_size +
      compute_clobber_size (get_clobbered_callee_saves call_conv clobbers)
  · have hsave : (gen_clobber_save call_conv setup_frame unwind_info
        (get_clobbered_callee_saves call_conv clobbers)
        fixed_frame_storage_size).2 =
        (if unwind_info && setup_frame then [MInst.Unwind] else []) ++
        (MInst.AjustSp (-((fixed_frame_storage_size +
            compute_clobber_size (get_clobbered_callee_saves call_conv clobbers)
            : Nat) : Int)) ::
          save_stores unwind_info 0
            (get_clobbered_callee_saves call_conv clobbers)) := by
      simp only [gen_clobber_save]
      rw [if_pos h0]
    have hrestore : gen_clobber_restore call_conv clobbers
        fixed_frame_storage_size =
        load_seq 0 (get_clobbered_callee_saves call_conv clobbers) ++
        [MInst.AjustSp ((fixed_frame_storage_size +
            compute_clobber_size (get_clobbered_callee_saves call_conv clobbers)
            : Nat) : Int)] := by
      simp only [gen_clobber_restore]
      rw [if_pos h0]
    constructor
    · rw [hsave, hrestore, mexec_append, mexec_append]
      have hunw : mexec
          ((if unwind_info && setup_frame then [MInst.Unwind] else []) ++
            (MInst.AjustSp (-((fixed_frame_storage_size +
                compute_clobber_size (get_clobbered_callee_saves call_conv clobbers)
                : Nat) : Int)) ::
              save_stores unwind_info 0
                (get_clobbered_callee_saves call_conv clobbers))) s =
          mexec (MInst.AjustSp (-((fixed_frame_storage_size +
              compute_clobber_size (get_clobbered_callee_saves call_conv clobbers)
              : Nat) : Int)) ::
            save_stores unwind_info 0
              (get_clobbered_callee_saves call_conv clobbers)) s := by
        rw [mexec_append, mexec_if_unwind]
      rw [hunw]
      have hc := save_restore_core unwind_info
        (get_clobbered_callee_saves call_conv clobbers)
        (fixed_frame_storage_size +
          compute_clobber_size (get_clobbered_callee_saves call_conv clobbers)) s
      rw [mexec_append, mexec_append] at hc
      exact hc
    · rw [hsave, hrestore, load_slots_append, store_slots_append,
        store_slots_if_unwind, load_slots_load_seq]
      have h1 : load_slots [MInst.AjustSp ((fixed_frame_storage_size +
          compute_clobber_size (get_clobbered_callee_saves call_conv clobbers)
          : Nat) : Int)] = [] := rfl
      have h2 : store_slots (MInst.AjustSp (-((fixed_frame_storage_size +
          compute_clobber_size (get_clobbered_callee_saves call_conv clobbers)
          : Nat) : Int)) ::
            save_stores unwind_info 0
              (get_clobbered_callee_saves call_conv clobbers)) =
          store_slots (save_stores unwind_info 0
            (get_clobbered_callee_saves call_conv clobbers)) := rfl
      rw [h1, h2, store_slots_save_stores]
      simp
  · have hccs : compute_clobber_size
        (get_clobbered_callee_saves call_conv clobbers) = 0 := by omega
    have hl : get_clobbered_callee_saves call_conv clobbers = [] :=
      compute_clobber_size_zero hccs
    have hsave : (gen_clobber_save call_conv setup_frame unwind_info
        (get_clobbered_callee_saves call_conv clobbers)
        fixed_frame_storage_size).2 =
        (if unwind_info && setup_frame then [MInst.Unwind] else []) ++ [] := by
      simp only [gen_clobber_save]
      rw [if_neg h0]
    have hrestore : gen_clobber_restore call_conv clobbers
        fixed_frame_storage_size =
        load_seq 0 (get_clobbered_callee_saves call_conv clobbers) ++ [] := by
      simp only [gen_clobber_restore]
      rw [if_neg h0]
    constructor
    · rw [hsave, hrestore, hl]
      rw [show load_seq 0 ([] : List RealReg) ++ ([] : List MInst) = [] from rfl]
      rw [List.append_nil, mexec_append, mexec_if_unwind]
      rfl
    · rw [hsave, hrestore, hl]
      rw [show load_seq 0 ([] : List RealReg) ++ ([] : List MInst) = [] from rfl]
      rw [List.append_nil, store_slots_if_unwind]
      rfl

/- ------------------------------------------------------------------ -/
/- gen_call (C7)                                                      -/
/- ------------------------------------------------------------------ -/

/-- `ir::ExternalName` (shortened name): a user symbol with namespace
and index, a test-case symbol, or a runtime library routine. -/
inductive ExtName
  | User (ns : Nat) (index : Nat)
  | TestCase (name : Nat)
  | LibCall (call : Nat)
deriving DecidableEq

/-- `RelocDistance`: whether a symbol is reachable by a short-range
direct call encoding. -/
inductive RelocDistance
  | Near | Far
deriving DecidableEq

/-- `CallDest`: a symbolic destination with linkage distance, or an
address already held in a register. -/
inductive CallDest
  | ExtName (name : ExtName) (distance : RelocDistance)
  | Reg (reg : RealReg)
deriving DecidableEq

/-- The call-related instructions emitted by `gen_call`: direct call,
address materialization (`LoadExtName`), indirect call. -/
inductive CInst
  | Call (dest : ExtName)
  | LoadExtName (rd : RealReg) (name : ExtName)
  | CallInd (rn : RealReg)
deriving DecidableEq

/-- The inner `use_direct_call` of `gen_call`: true only for a `User`
symbol at `Near` distance. -/
def use_direct_call (name : ExtName) (distance : RelocDistance) : Bool :=
  match name with
  | .User _ _ => distance = RelocDistance.Near
  | _ => false

/-- `Riscv64MachineDeps::gen_call`, keeping only the destination and the
scratch register (register bookkeeping fields are elided): one direct
call for a near user symbol; load-address plus indirect call for every
other named symbol; a single indirect call for a register destination. -/
def gen_call (dest : CallDest) (tmp : RealReg) : List CInst :=
  match dest with
  | .ExtName name distance =>
    if use_direct_call name distance then [CInst.Call name]
    else [CInst.LoadExtName tmp name, CInst.CallInd tmp]
  | .Reg reg => [CInst.CallInd reg]

/-- C7 counterexample: for a destination address already in a register,
`gen_call` emits one instruction, not the two the claim asserts. -/
theorem c7_register_dest_counterexample :
    ¬ ((gen_call (CallDest.Reg (x_reg 5)) (x_reg 10)).length = 2) := by decide

/-- C7 (amended): a near user symbol gives exactly one direct call; a
named symbol that is far or not a user symbol gives exactly the two
instructions load-address then indirect call; a register destination
gives exactly one indirect call through that register. -/
theorem c7_call_instruction_shapes :
    (∀ (ns index : Nat) (tmp : RealReg),
        gen_call (CallDest.ExtName (ExtName.User ns index)
          RelocDistance.Near) tmp =
        [CInst.Call (ExtName.User ns index)])
    ∧ (∀ (name : ExtName) (distance : RelocDistance) (tmp : RealReg),
        use_direct_call name distance = false →
        gen_call (CallDest.ExtName name distance) tmp =
        [CInst.LoadExtName tmp name, CInst.CallInd tmp])
    ∧ (∀ (reg tmp : RealReg),
        gen_call (CallDest.Reg reg) tmp = [CInst.CallInd reg]) := by
  refine ⟨fun ns index tmp => rfl, fun name distance tmp h => ?_,
    fun reg tmp => rfl⟩
  simp [gen_call, h]

/-- C7 witness: the far-symbol case of `c7_call_instruction_shapes`
applied to a library call at near distance. -/
theorem c7_call_instruction_shapes_witness :
    gen_call (CallDest.ExtName (ExtName.LibCall 0) RelocDistance.Near)
      (x_reg 12) =
    [CInst.LoadExtName (x_reg 12) (ExtName.LibCall 0),
     CInst.CallInd (x_reg 12)] :=
  c7_call_instruction_shapes.2.1 (ExtName.LibCall 0) RelocDistance.Near
    (x_reg 12) (by decide)

/- ------------------------------------------------------------------ -/
/- gen_add_imm (C8)                                                   -/
/- ------------------------------------------------------------------ -/

/-- Modelled from the spec: `Imm12::maybe_from_u64` (not under `src/`) —
the signed 12-bit immediate legality check: a u64 value is encodable iff
it is the sign-extension of a 12-bit field, i.e. lies in [0, 2047] or
[2^64 - 2048, 2^64). -/
def imm12_ok (v : Nat) : Bool :=
  v < 2048 || (decide (2 ^ 64 - 2048 ≤ v) && decide (v < 2 ^ 64))

/-- Modelled from the spec: the second spill-temporary register
(`spilltmp_reg2` of `regs.rs`, not under `src/`), x30. -/
def spilltmp_reg2 : RealReg := x_reg 30

/-- The ALU instructions emitted by `gen_add_imm`: and-immediate,
register-register add, and the constant-materialization sequence
`load_constant_u32` abstracted to its effect of putting the constant in
the destination register. -/
inductive AInst
  | AluRRImm12Andi (rd rs : RealReg) (imm : Nat)
  | AluRRRAdd (rd rs1 rs2 : RealReg)
  | LoadConstU32 (rd : RealReg) (imm : Nat)
deriving DecidableEq

/-- Modelled from the spec: RISC-V semantics of the emitted ALU
instructions on a 64-bit register file (values as naturals below 2^64;
`andi` is bitwise AND with the encoded pattern, `add` wraps mod 2^64). -/
def astep (regs : RealReg → Nat) : AInst → (RealReg → Nat)
  | .AluRRImm12Andi rd rs imm =>
    Function.update regs rd (Nat.land (regs rs) imm)
  | .AluRRRAdd rd rs1 rs2 =>
    Function.update regs rd ((regs rs1 + regs rs2) % 2 ^ 64)
  | .LoadConstU32 rd imm => Function.update regs rd imm

/-- Execute an ALU instruction list in order. -/
def aexec (insts : List AInst) (regs : RealReg → Nat) : RealReg → Nat :=
  insts.foldl astep regs

/-- `Riscv64MachineDeps::gen_add_imm`: if the 32-bit immediate fits a
signed 12-bit field, emit a single `Andi` instruction (the source's
`AluOPRRI::Andi`); otherwise materialize the constant into
`spilltmp_reg2` and emit a register-register `Add`. -/
def gen_add_imm (into_reg from_reg : RealReg) (imm : Nat) : List AInst :=
  if imm12_ok imm then
    [AInst.AluRRImm12Andi into_reg from_reg imm]
  else
    [AInst.LoadConstU32 spilltmp_reg2 imm,
     AInst.AluRRRAdd into_reg spilltmp_reg2 from_reg]

/-- Register file for the C8 evaluation: x5 holds 2, all others 0. -/
def c8_regs : RealReg → Nat := fun r => if r = x_reg 5 then 2 else 0

/-- C8 (code bug): for the in-range immediate 1 with source register
holding 2, `gen_add_imm` emits a single and-immediate (`Andi`)
instruction whose execution leaves 2 &&& 1 = 0 in the destination,
not the sum 3 the claim requires; the out-of-range immediate 5000
correctly becomes a constant load plus register add computing 5002. -/
theorem c8_gen_add_imm_andi_bug :
    gen_add_imm (x_reg 6) (x_reg 5) 1 =
      [AInst.AluRRImm12Andi (x_reg 6) (x_reg 5) 1]
    ∧ aexec (gen_add_imm (x_reg 6) (x_reg 5) 1) c8_regs (x_reg 6) = 0
    ∧ c8_regs (x_reg 5) + 1 = 3
    ∧ gen_add_imm (x_reg 6) (x_reg 5) 5000 =
      [AInst.LoadConstU32 spilltmp_reg2 5000,
       AInst.AluRRRAdd (x_reg 6) spilltmp_reg2 (x_reg 5)]
    ∧ aexec (gen_add_imm (x_reg 6) (x_reg 5) 5000) c8_regs (x_reg 6) = 5002 := by
  refine ⟨by decide, by decide, by decide, by decide, ?_⟩
  have h : imm12_ok 5000 = false := by decide
  simp [aexec, gen_add_imm, h, astep, Function.update_apply, c8_regs,
    spilltmp_reg2, x_reg]

/- ------------------------------------------------------------------ -/
/- Boolean constant materialization (C9)                              -/
/- ------------------------------------------------------------------ -/

/-- The `imm` constructor of the ISLE lowering context: the 64-bit
pattern handed to `load_constant_u64` (whose effect is to put exactly
this pattern in the fresh result register).  A boolean type with a
nonzero requested value is canonicalized to the all-ones pattern `!0`. -/
def imm (ty : IrType) (val : Nat) : Nat :=
  if ty.is_bool && decide (val ≠ 0) then 2 ^ 64 - 1 else val

/-- C9: materializing a nonzero constant of any boolean type loads the
all-ones 64-bit pattern — in particular never the bare value 1 — and a
zero boolean constant loads all zeros. -/
theorem c9_bool_imm_all_ones :
    (∀ (ty : IrType) (val : Nat), ty.is_bool = true → val ≠ 0 →
        imm ty val = 2 ^ 64 - 1 ∧ imm ty val ≠ 1)
    ∧ (∀ ty : IrType, ty.is_bool = true → imm ty 0 = 0) := by
  constructor
  · intro ty val hb hv
    have h : imm ty val = 2 ^ 64 - 1 := by simp [imm, hb, hv]
    exact ⟨h, by rw [h]; norm_num⟩
  · intro ty hb
    simp [imm]

/-- C9 witness: a nonzero B1 constant materializes as all ones. -/
theorem c9_bool_imm_all_ones_witness :
    imm IrType.B1 5 = 2 ^ 64 - 1 ∧ imm IrType.B1 5 ≠ 1 :=
  c9_bool_imm_all_ones.1 IrType.B1 5 (by decide) (by decide)
